import Mathlib

/-!
# compute_density/index.js

A shallow embedding of `copyToDB` and of the `emitRow` passed to it at the
bottom of `index.js`, with the parts of JavaScript the two functions rely on:
string concatenation, `Array.prototype.join`, property lookup, the conversions
`ToString` and `ToNumber`, and IEEE 754 double arithmetic for `/` and `*`.

Standard output is modelled as the list of `console.log` calls, in order; the
text written is each logged string followed by a line break.  The stream
`fs.createReadStream(args.file).pipe(geojsonStream.parse())` is modelled by the
list of features it decodes, in file order.
-/

namespace ComputeDensity

/-! ## Strings -/

/-- `Array.prototype.join` on an array whose elements are already strings. -/
def join (sep : String) : List String → String
  | [] => ""
  | [x] => x
  | x :: y :: rest => x ++ sep ++ join sep (y :: rest)

/-- Segments of a character list between occurrences of `sep`. -/
def splitOnChar (sep : Char) : List Char → List (List Char)
  | [] => [[]]
  | c :: cs =>
    if c = sep then [] :: splitOnChar sep cs
    else
      match splitOnChar sep cs with
      | [] => [[c]]
      | seg :: segs => (c :: seg) :: segs

/-- `String.prototype.split` with a one-character separator. -/
def split (s : String) (sep : Char) : List String :=
  (splitOnChar sep s.data).map String.mk

/-- The text `console.log` writes for a sequence of calls: every logged string
is followed by one line break. -/
def consoleText : List String → String
  | [] => ""
  | s :: rest => s ++ "\n" ++ consoleText rest

/-- The lines of a text: the segments that end in a line break, in order.
What follows the last line break (nothing, for `console.log` output) is not a
line. -/
def linesOf (text : String) : List String :=
  (split text '\n').dropLast

/-! ## Numbers

A JavaScript number is an IEEE 754 double.  A finite double is kept as sign,
integer significand and binary exponent, its value being
`± mant * 2 ^ exp`, in the unique form with `-1074 ≤ exp ≤ 971`,
`mant < 2 ^ 53` and `2 ^ 52 ≤ mant` unless `exp = -1074`. -/

/-- An IEEE 754 double. -/
inductive JSNumber where
  | nan
  | infinity (negative : Bool)
  | finite (negative : Bool) (mant : Nat) (exp : Int)
  deriving DecidableEq, Repr

namespace JSNumber

/-- The quotient `n / d` rounded to the nearest integer, ties to even. -/
def roundQuot (n d : Nat) : Nat :=
  let q := n / d
  let r := n % d
  if 2 * r < d then q
  else if 2 * r = d then (if q % 2 = 0 then q else q + 1)
  else q + 1

/-- Binary logarithm, rounded down, by repeated halving. -/
def log2Fuel : Nat → Nat → Nat
  | 0, _ => 0
  | fuel + 1, n => if 2 ≤ n then log2Fuel fuel (n / 2) + 1 else 0

/-- Binary logarithm of a positive integer, rounded down. -/
def log2 (n : Nat) : Nat := log2Fuel n n

/-- The integer `e` with `2 ^ e ≤ num / den < 2 ^ (e + 1)`, for positive
`num` and `den`. -/
def floorLog2 (num den : Nat) : Int :=
  let e0 : Int := (log2 num : Int) - (log2 den : Int)
  if 0 ≤ e0 then (if den * 2 ^ e0.toNat ≤ num then e0 else e0 - 1)
  else (if den ≤ num * 2 ^ (-e0).toNat then e0 else e0 - 1)

/-- The double nearest to the rational `± num / den` (`den` positive), ties to
even, with overflow to infinity and gradual underflow. -/
def roundToDouble (negative : Bool) (num den : Nat) : JSNumber :=
  if num = 0 then finite negative 0 (-1074)
  else
    let e := floorLog2 num den
    let q := max (e - 52) (-1074)
    let m := if 0 ≤ q then roundQuot num (den * 2 ^ q.toNat)
             else roundQuot (num * 2 ^ (-q).toNat) den
    let m1 := if m = 2 ^ 53 then 2 ^ 52 else m
    let q1 := if m = 2 ^ 53 then q + 1 else q
    if 971 < q1 then infinity negative else finite negative m1 q1

/-- The double for a non-negative integer literal such as `1000`. -/
def ofNat (n : Nat) : JSNumber := roundToDouble false n 1

/-- The `/` operator on numbers. -/
def div : JSNumber → JSNumber → JSNumber
  | nan, _ => nan
  | _, nan => nan
  | infinity _, infinity _ => nan
  | infinity s, finite t _ _ => infinity (s != t)
  | finite s _ _, infinity t => finite (s != t) 0 (-1074)
  | finite s m e, finite t n f =>
    if n = 0 then (if m = 0 then nan else infinity (s != t))
    else roundToDouble (s != t) (m * 2 ^ (e - f).toNat) (n * 2 ^ (f - e).toNat)

/-- The `*` operator on numbers. -/
def mul : JSNumber → JSNumber → JSNumber
  | nan, _ => nan
  | _, nan => nan
  | infinity s, infinity t => infinity (s != t)
  | infinity s, finite t n _ => if n = 0 then nan else infinity (s != t)
  | finite s m _, infinity t => if m = 0 then nan else infinity (s != t)
  | finite s m e, finite t n f =>
    roundToDouble (s != t) (m * n * 2 ^ (e + f).toNat) (2 ^ (-(e + f)).toNat)

/-- Least `k` from `k` upwards with `num < den * 10 ^ k`. -/
def digitsAbove (num den : Nat) : Nat → Nat → Nat
  | 0, k => k
  | fuel + 1, k => if num < den * 10 ^ k then k else digitsAbove num den fuel (k + 1)

/-- Least `j` from `j` upwards with `den ≤ num * 10 ^ j`. -/
def digitsBelow (num den : Nat) : Nat → Nat → Nat
  | 0, j => j
  | fuel + 1, j => if den ≤ num * 10 ^ j then j else digitsBelow num den fuel (j + 1)

/-- The integer `n` with `10 ^ (n - 1) ≤ num / den < 10 ^ n`, for a positive
double `num / den` (at most 309 digits before and 324 after the point). -/
def decimalExponent (num den : Nat) : Int :=
  if den ≤ num then (digitsAbove num den 400 1 : Int)
  else 1 - (digitsBelow num den 400 1 : Int)

/-- The `k`-digit integer `s` and exponent `n` for which `s * 10 ^ (n - k)`
rounds to the double `x = num / den`, if there is one: of the two `k`-digit
decimals around `x` the one that converts back to `x`, the closer one (the
even one on a tie) when both do. -/
def shortestAt (x : JSNumber) (num den : Nat) (n : Int) (k : Nat) : Option (Nat × Int) :=
  let p : Int := (k : Int) - n
  let tn := num * 10 ^ p.toNat
  let td := den * 10 ^ (-p).toNat
  let lo := tn / td
  let hi := lo + 1
  let r := tn % td
  let back (s : Nat) : Bool := roundToDouble false (s * 10 ^ (-p).toNat) (10 ^ p.toNat) == x
  let norm (s : Nat) : Nat × Int := if s = 10 ^ k then (10 ^ (k - 1), n + 1) else (s, n)
  let preferLo : Bool := 2 * r < td || (2 * r == td && lo % 2 == 0)
  match back lo, back hi with
  | true, true => some (norm (if preferLo then lo else hi))
  | true, false => some (norm lo)
  | false, true => some (norm hi)
  | false, false => none

/-- The shortest decimal that converts back to `x`: the least digit count `k`
(seventeen digits always suffice) for which `shortestAt` finds one. -/
def shortestFrom (x : JSNumber) (num den : Nat) (n : Int) : Nat → Nat → Nat × Int
  | 0, _ => (0, 0)
  | fuel + 1, k =>
    match shortestAt x num den n k with
    | some r => r
    | none => shortestFrom x num den n fuel (k + 1)

/-- A run of `n` zero digits. -/
def zeros (n : Nat) : String := String.mk (List.replicate n '0')

/-- The layout rules of `Number::toString` for the decimal digits of `s` and
the exponent `n`: plain digits, a decimal point inside or before the digits, or
exponent form outside `10 ^ -6 ≤ x < 10 ^ 21`. -/
def formatDigits (s : Nat) (n : Int) : String :=
  let ds := Nat.toDigits 10 s
  let k : Int := ds.length
  if k ≤ n ∧ n ≤ 21 then String.mk ds ++ zeros (n - k).toNat
  else if 0 < n ∧ n ≤ 21 then String.mk (ds.take n.toNat) ++ "." ++ String.mk (ds.drop n.toNat)
  else if -6 < n ∧ n ≤ 0 then "0." ++ zeros (-n).toNat ++ String.mk ds
  else
    let e := n - 1
    let sign := if 0 ≤ e then "+" else "-"
    let es := String.mk (Nat.toDigits 10 e.natAbs)
    if ds.length = 1 then String.mk ds ++ "e" ++ sign ++ es
    else String.mk (ds.take 1) ++ "." ++ String.mk (ds.drop 1) ++ "e" ++ sign ++ es

/-- The operation `Number::toString` (radix 10). -/
def toString : JSNumber → String
  | nan => "NaN"
  | infinity false => "Infinity"
  | infinity true => "-Infinity"
  | finite negative m e =>
    if m = 0 then "0"
    else
      let num := m * 2 ^ e.toNat
      let den := 2 ^ (-e).toNat
      let sn := shortestFrom (finite false m e) num den (decimalExponent num den) 17 1
      (if negative then "-" else "") ++ formatDigits sn.1 sn.2

end JSNumber

/-! ## Values -/

/-- A JavaScript value as it occurs in feature properties and in rows: the
scalars, and `object text` for any non-primitive value (a nested object, an
array, a function) whose conversion to a primitive yields the string `text`. -/
inductive JSValue where
  | undefined
  | null
  | bool (b : Bool)
  | number (x : JSNumber)
  | string (s : String)
  | object (text : String)
  deriving DecidableEq, Repr

namespace JSValue

/-- The conversion `ToString`, as a template literal applies it. -/
def toString : JSValue → String
  | undefined => "undefined"
  | null => "null"
  | bool true => "true"
  | bool false => "false"
  | number x => x.toString
  | string s => s
  | object text => text

/-- The conversion `ToNumber`, as `/` applies it to its operands.
`stringToNumber` is the host operation `StringToNumber`. -/
def toNumber (stringToNumber : String → JSNumber) : JSValue → JSNumber
  | undefined => JSNumber.nan
  | null => JSNumber.finite false 0 (-1074)
  | bool true => JSNumber.ofNat 1
  | bool false => JSNumber.finite false 0 (-1074)
  | number x => x
  | string s => stringToNumber s
  | object text => stringToNumber text

/-- The text `Array.prototype.join` uses for an element: the empty string for
`undefined` and `null`, `ToString` of the element otherwise. -/
def joinText : JSValue → String
  | undefined => ""
  | null => ""
  | v => v.toString

end JSValue

/-- A thrown JavaScript error, identified by its `name`. -/
structure JSError where
  name : String
  deriving DecidableEq, Repr

/-! ## Rows and features -/

/-- The object `emitRow` returns.  `own` lists its own properties (the first
entry for a key is the property), `inherited` is what the prototype chain
yields for a key that is not an own property: `undefined` for most keys, a
built-in function for keys such as `toString`. -/
structure Row where
  own : List (String × JSValue)
  inherited : String → JSValue

namespace Row

/-- The property access `row[key]`. -/
def get (row : Row) (key : String) : JSValue :=
  match row.own.lookup key with
  | some v => v
  | none => row.inherited key

/-- Own properties of an array whose elements from index `i` on are `elems`:
one property per index, then `length`. -/
def arrayProps : Nat → List JSValue → List (String × JSValue)
  | i, [] => [("length", JSValue.number (JSNumber.ofNat i))]
  | i, v :: rest => (Nat.repr i, v) :: arrayProps (i + 1) rest

/-- An array `[v0, v1, ...]` as a row; `inherited` stands for the lookup in
`Array.prototype`. -/
def ofArray (elems : List JSValue) (inherited : String → JSValue) : Row :=
  ⟨arrayProps 0 elems, inherited⟩

end Row

/-- Function-valued members every object literal inherits from
`Object.prototype`. -/
def objectPrototypeFunctions : List String :=
  ["__defineGetter__", "__defineSetter__", "hasOwnProperty", "__lookupGetter__",
   "__lookupSetter__", "isPrototypeOf", "propertyIsEnumerable", "toString", "valueOf",
   "toLocaleString"]

/-- The lookup of a key in `Object.prototype`. -/
def objectPrototype (key : String) : JSValue :=
  if key ∈ objectPrototypeFunctions then
    JSValue.object ("function " ++ key ++ "() \x7b [native code] \x7d")
  else if key = "constructor" then JSValue.object "function Object() \x7b [native code] \x7d"
  else if key = "__proto__" then JSValue.object "[object Object]"
  else JSValue.undefined

/-- An object literal with the given own properties. -/
def objectLiteral (props : List (String × JSValue)) : Row := ⟨props, objectPrototype⟩

/-- A GeoJSON feature as the stream decodes it: a geometry and the `properties`
member, which is a JSON object (its members, scalar-valued as in the data
model), or is `null` or missing (`none`). -/
structure Feature (Geometry : Type) where
  geometry : Geometry
  properties : Option (List (String × JSValue))

/-- The property access `properties.key` on a decoded JSON object, for the keys
`BLOCKID10`, `POP10` and `risk_zone` the program reads (none of them is a
member of `Object.prototype`): the member if present, `undefined` if not. -/
def prop (properties : List (String × JSValue)) (key : String) : JSValue :=
  (properties.lookup key).getD JSValue.undefined

/-- What the program takes from its environment: the library function
`geojsonArea.geometry` (a number of square meters, or a thrown error) and the
operation `StringToNumber` of the language. -/
structure Host (Geometry : Type) where
  area : Geometry → Except JSError JSNumber
  stringToNumber : String → JSNumber

/-! ## The program -/

/-- One entry of `args.schema`. -/
structure Column where
  name : String
  type : String
  deriving DecidableEq, Repr

/-- The argument object of `copyToDB`. -/
structure Args (F : Type) where
  tablename : String
  file : String
  schema : List Column
  emitRow : F → Except JSError Row

/-- What a run leaves behind: the strings passed to `console.log`, in order,
and the error that ended the run, if one was thrown. -/
structure Output where
  logs : List String
  error : Option JSError
  deriving DecidableEq, Repr

/-- The text written to standard output. -/
def Output.stdout (out : Output) : String := consoleText out.logs

/-- The string logged for one row: `args.schema.map(col => row[col.name]).join('\t')`. -/
def rowLine (schema : List Column) (row : Row) : String :=
  join "\t" (schema.map fun col => (row.get col.name).joinText)

/-- The stream stage `es.mapSync(...)` together with the `end` handler: every
feature in turn is passed to `args.emitRow` and the row is logged; an error
thrown by `emitRow` ends the run; at the end of the input the terminator and
`COMMIT;` are logged in one call. -/
def inStream {F : Type} (args : Args F) : List F → Output
  | [] => ⟨["\\.\nCOMMIT;\n"], none⟩
  | feature :: rest =>
    match args.emitRow feature with
    | .error e => ⟨[], some e⟩
    | .ok row =>
      let out := inStream args rest
      ⟨rowLine args.schema row :: out.logs, out.error⟩

/-- The five `console.log` calls `copyToDB` makes before it opens the file. -/
def preamble {F : Type} (args : Args F) : List String :=
  let schema := join "," (args.schema.map fun col => col.name ++ " " ++ col.type)
  let colNames := join "," (args.schema.map fun col => col.name)
  ["SET CLIENT_ENCODING TO UTF8;",
   "SET STANDARD_CONFORMING_STRINGS TO ON;",
   "BEGIN;",
   "CREATE TABLE \"" ++ args.tablename ++ "\" (" ++ schema ++ ");",
   "COPY " ++ args.tablename ++ " (" ++ colNames ++ ") FROM stdin;"]

/-- The function `copyToDB`, run on the features decoded from `args.file`. -/
def copyToDB {F : Type} (args : Args F) (features : List F) : Output :=
  let out := inStream args features
  ⟨preamble args ++ out.logs, out.error⟩

/-- The `emitRow` of the call at the bottom of `index.js`. -/
def emitRow {G : Type} (host : Host G) (feature : Feature G) : Except JSError Row :=
  match host.area feature.geometry with
  | .error e => .error e
  | .ok sqMeters =>
    match feature.properties with
    | none => .error ⟨"TypeError"⟩
    | some properties =>
      .ok (objectLiteral
        [("BLOCKID10", JSValue.string (prop properties "BLOCKID10").toString),
         ("pop_per_sq_km",
           JSValue.number
             (((prop properties "POP10").toNumber host.stringToNumber).div sqMeters
               |>.mul (JSNumber.ofNat 1000))),
         ("zika_risk", prop properties "risk_zone")])

/-- The schema of the call at the bottom of `index.js`. -/
def floridaSchema : List Column :=
  [⟨"BLOCKID10", "character varying(80)"⟩, ⟨"pop_per_sq_km", "real"⟩, ⟨"zika_risk", "bool"⟩]

/-- The arguments of the call at the bottom of `index.js`; `dirname` is the
value of `__dirname`. -/
def floridaArgs {G : Type} (host : Host G) (dirname : String) : Args (Feature G) :=
  { tablename := "florida_zika"
    file := dirname ++ "/../output/zika.json"
    schema := floridaSchema
    emitRow := emitRow host }


/-! ## Sample inputs -/

/-- A one-column schema. -/
def oneColumn : List Column := [⟨"a", "text"⟩]

/-- A call whose `emitRow` returns the row `\x7ba: v\x7d` for every feature. -/
def constArgs (v : JSValue) : Args Unit :=
  { tablename := "t", file := "in.json", schema := oneColumn,
    emitRow := fun _ => .ok (objectLiteral [("a", v)]) }

/-- A call with the schema of `index.js` whose `emitRow` returns the array
`["120860001", 0.5, true]`, one value per schema column, for every feature.
None of the three column names is a member of `Array.prototype`. -/
def arrayArgs : Args Unit :=
  { tablename := "florida_zika", file := "zika.json", schema := floridaSchema,
    emitRow := fun _ => .ok (Row.ofArray
      [JSValue.string "120860001", JSValue.number (JSNumber.finite false (2 ^ 52) (-53)),
       JSValue.bool true]
      (fun _ => JSValue.undefined)) }

/-- A call with the given schema whose `emitRow` returns an empty object. -/
def schemaArgs (schema : List Column) : Args Unit :=
  { tablename := "t", file := "in.json", schema := schema,
    emitRow := fun _ => .ok (objectLiteral []) }

/-- A host in which every geometry has an area of 1,000,000 square meters.
The sample features below have no string-valued `POP10`, so `StringToNumber`
is never reached on them. -/
def squareHost : Host Unit :=
  { area := fun _ => .ok (JSNumber.ofNat 1000000), stringToNumber := fun _ => JSNumber.nan }

/-- The feature of the worked example: `BLOCKID10: "120860001"`, `POP10: 500`,
`risk_zone: true`. -/
def blockFeature : Feature Unit :=
  ⟨(), some [("BLOCKID10", JSValue.string "120860001"),
             ("POP10", JSValue.number (JSNumber.ofNat 500)),
             ("risk_zone", JSValue.bool true)]⟩

/-- The same feature without the `POP10` property. -/
def noPopFeature : Feature Unit :=
  ⟨(), some [("BLOCKID10", JSValue.string "120860001"), ("risk_zone", JSValue.bool true)]⟩

/-- A host in which every geometry has area 0, as `geojsonArea.geometry`
returns for a point. -/
def pointHost : Host Unit :=
  { area := fun _ => .ok (JSNumber.finite false 0 (-1074)),
    stringToNumber := fun _ => JSNumber.nan }

/-- A feature whose `properties` member is `null`. -/
def nullPropertiesFeature : Feature Unit := ⟨(), none⟩

/-! ## Lemmas on strings -/

theorem splitOnChar_of_not_mem (sep : Char) (l : List Char) (h : sep ∉ l) :
    splitOnChar sep l = [l] := by
  induction l with
  | nil => rfl
  | cons c cs ih =>
    have hc : c ≠ sep := fun e => h (by simp [e])
    have hcs : sep ∉ cs := fun m => h (List.mem_cons_of_mem _ m)
    simp [splitOnChar, hc, ih hcs]

theorem splitOnChar_append_sep (sep : Char) (l rest : List Char) (h : sep ∉ l) :
    splitOnChar sep (l ++ sep :: rest) = l :: splitOnChar sep rest := by
  induction l with
  | nil => simp [splitOnChar]
  | cons c cs ih =>
    have hc : c ≠ sep := fun e => h (by simp [e])
    have hcs : sep ∉ cs := fun m => h (List.mem_cons_of_mem _ m)
    simp [splitOnChar, hc, ih hcs]

theorem join_eq_intercalate (sep : String) (xs : List String) :
    join sep xs = sep.intercalate xs := by
  have go : ∀ (ys : List String) (acc y : String),
      String.intercalate.go acc sep (y :: ys) = acc ++ sep ++ join sep (y :: ys) := by
    intro ys
    induction ys with
    | nil => intro acc y; simp [String.intercalate.go, join]
    | cons z zs ih =>
      intro acc y
      rw [String.intercalate.go, ih, join]
      simp [String.append_assoc]
  cases xs with
  | nil => rfl
  | cons x xs =>
    cases xs with
    | nil => simp [join, String.intercalate, String.intercalate.go]
    | cons y ys => rw [String.intercalate, go, join]

theorem splitOnChar_join (sep : Char) (sepStr : String) (hsep : sepStr.data = [sep])
    (fields : List String) (hne : fields ≠ []) (h : ∀ f ∈ fields, sep ∉ f.data) :
    splitOnChar sep (join sepStr fields).data = fields.map String.data := by
  induction fields with
  | nil => exact absurd rfl hne
  | cons x xs ih =>
    cases xs with
    | nil => simpa [join] using splitOnChar_of_not_mem sep x.data (h x (by simp))
    | cons y ys =>
      have hx : sep ∉ x.data := h x (by simp)
      have ih2 := ih (by simp) (fun f hf => h f (List.mem_cons_of_mem _ hf))
      rw [join]
      simp only [String.data_append, hsep, List.append_assoc, List.singleton_append]
      rw [splitOnChar_append_sep sep _ _ hx, ih2]
      simp

theorem split_join (sep : Char) (sepStr : String) (hsep : sepStr.data = [sep])
    (fields : List String) (hne : fields ≠ []) (h : ∀ f ∈ fields, sep ∉ f.data) :
    split (join sepStr fields) sep = fields := by
  unfold split
  rw [splitOnChar_join sep sepStr hsep fields hne h]
  simp [Function.comp_def]

theorem not_mem_join (c : Char) (sepStr : String) (hsep : c ∉ sepStr.data)
    (fields : List String) (h : ∀ f ∈ fields, c ∉ f.data) : c ∉ (join sepStr fields).data := by
  induction fields with
  | nil => simp [join]
  | cons x xs ih =>
    cases xs with
    | nil => simpa [join] using h x (by simp)
    | cons y ys =>
      have ih2 := ih (fun f hf => h f (List.mem_cons_of_mem _ hf))
      rw [join]
      simp only [String.data_append, List.mem_append, not_or]
      exact ⟨⟨h x (by simp), hsep⟩, ih2⟩

theorem consoleText_append (a b : List String) :
    consoleText (a ++ b) = consoleText a ++ consoleText b := by
  induction a with
  | nil => simp [consoleText]
  | cons x xs ih => simp [consoleText, ih, String.append_assoc]

theorem splitOnChar_consoleText (ls : List String) (h : ∀ l ∈ ls, '\n' ∉ l.data) :
    splitOnChar '\n' (consoleText ls).data = ls.map String.data ++ [[]] := by
  induction ls with
  | nil => rfl
  | cons x xs ih =>
    have hx : '\n' ∉ x.data := h x (by simp)
    have ih2 := ih (fun l hl => h l (List.mem_cons_of_mem _ hl))
    have hnl : "\n".data = ['\n'] := rfl
    simp only [consoleText, String.data_append, hnl, List.append_assoc, List.singleton_append]
    rw [splitOnChar_append_sep _ _ _ hx, ih2]
    simp

theorem linesOf_consoleText (ls : List String) (h : ∀ l ∈ ls, '\n' ∉ l.data) :
    linesOf (consoleText ls) = ls := by
  unfold linesOf split
  rw [splitOnChar_consoleText ls h]
  simp [Function.comp_def]


/-! ## Lemmas on the program -/

theorem inStream_ok {F : Type} (args : Args F) (rows : F → Row) (features : List F)
    (h : ∀ f ∈ features, args.emitRow f = .ok (rows f)) :
    inStream args features =
      ⟨features.map (fun f => rowLine args.schema (rows f)) ++ ["\\.\nCOMMIT;\n"], none⟩ := by
  induction features with
  | nil => rfl
  | cons f fs ih =>
    have hf := h f (by simp)
    have ih2 := ih (fun g hg => h g (List.mem_cons_of_mem _ hg))
    simp [inStream, hf, ih2]

theorem consoleText_final :
    consoleText ["\\.\nCOMMIT;\n"] = consoleText ["\\.", "COMMIT;", ""] := by decide

theorem preamble_no_newline {F : Type} (args : Args F)
    (htable : '\n' ∉ args.tablename.data)
    (hschema : ∀ col ∈ args.schema, '\n' ∉ col.name.data ∧ '\n' ∉ col.type.data) :
    ∀ l ∈ preamble args, '\n' ∉ l.data := by
  have h1 : '\n' ∉ (join "," (args.schema.map fun col => col.name ++ " " ++ col.type)).data := by
    apply not_mem_join _ _ (by decide)
    intro f hf
    obtain ⟨col, hcol, rfl⟩ := List.mem_map.1 hf
    have := hschema col hcol
    simp [this.1, this.2]
  have h2 : '\n' ∉ (join "," (args.schema.map fun col => col.name)).data := by
    apply not_mem_join _ _ (by decide)
    intro f hf
    obtain ⟨col, hcol, rfl⟩ := List.mem_map.1 hf
    exact (hschema col hcol).1
  intro l hl
  simp only [preamble, List.mem_cons, List.mem_singleton, List.not_mem_nil, or_false] at hl
  rcases hl with rfl | rfl | rfl | rfl | rfl
  · decide
  · decide
  · decide
  · simp [String.data_append, htable, h1]
  · simp [String.data_append, htable, h2]

theorem preamble_ne_terminator {F : Type} (args : Args F) :
    ∀ l ∈ preamble args, l ≠ "\\." ∧ l ≠ "COMMIT;" := by
  intro l hl
  simp only [preamble, List.mem_cons, List.mem_singleton, List.not_mem_nil, or_false] at hl
  rcases hl with rfl | rfl | rfl | rfl | rfl
  · decide
  · decide
  · decide
  · constructor <;> intro h <;> have h2 := congrArg String.data h <;>
      simp [String.data_append] at h2
  · constructor <;> intro h <;> have h2 := congrArg String.data h <;>
      simp [String.data_append] at h2

theorem copyToDB_single {F : Type} (args : Args F) (f : F) (row : Row)
    (hrow : args.emitRow f = .ok row) :
    copyToDB args [f] =
      ⟨preamble args ++ [rowLine args.schema row, "\\.\nCOMMIT;\n"], none⟩ := by
  simp [copyToDB, inStream, hrow]

theorem copyToDB_cons {F : Type} (args : Args F) (f : F) (rest : List F) (row : Row)
    (hrow : args.emitRow f = .ok row) :
    copyToDB args (f :: rest) =
      ⟨preamble args ++ rowLine args.schema row :: (inStream args rest).logs,
        (inStream args rest).error⟩ := by
  simp [copyToDB, inStream, hrow]

theorem drop_preamble {F : Type} (args : Args F) (l : List String) :
    (preamble args ++ l).drop 5 = l := by
  simp [preamble]

theorem JSNumber.nan_div (x : JSNumber) : JSNumber.nan.div x = JSNumber.nan := by
  cases x <;> rfl

theorem JSNumber.nan_mul (x : JSNumber) : JSNumber.nan.mul x = JSNumber.nan := by
  cases x <;> rfl

theorem take_preamble {F : Type} (args : Args F) (l : List String) :
    (preamble args ++ l).take 5 = preamble args := by
  simp [preamble]

theorem inStream_entry {F : Type} (args : Args F) (features : List F) :
    ∀ (i : Nat) (f : F) (line : String), features[i]? = some f →
      (inStream args features).logs[i]? = some line →
      ∃ row, args.emitRow f = .ok row ∧ line = rowLine args.schema row := by
  induction features with
  | nil => intro i f line hf; simp at hf
  | cons g gs ih =>
    intro i f line hf hline
    cases hg : args.emitRow g with
    | error e => simp [inStream, hg] at hline
    | ok row =>
      simp only [inStream, hg] at hline
      cases i with
      | zero =>
        simp at hf hline
        subst hf
        exact ⟨row, hg, hline.symm⟩
      | succ j =>
        simp at hf hline
        exact ih j f line hf hline

theorem inStream_complete {F : Type} (args : Args F) (features : List F)
    (h : ∀ f ∈ features, ∃ row, args.emitRow f = .ok row) :
    (inStream args features).logs.length = features.length + 1 ∧
    (inStream args features).logs[features.length]? = some "\\.\nCOMMIT;\n" ∧
    (inStream args features).error = none := by
  induction features with
  | nil => simp [inStream]
  | cons g gs ih =>
    obtain ⟨row, hg⟩ := h g (by simp)
    have ih2 := ih (fun f hf => h f (List.mem_cons_of_mem _ hf))
    simp only [inStream, hg]
    simpa using ih2

/-! ## C1 -/

/-- C1, counterexample: with the one-column schema and a feature whose row holds
the string `\.`, the run ends without error, the line `\.` occurs twice in the
output, and the lines after the five preamble lines are the data line `\.`,
the terminator `\.`, `COMMIT;` and an empty line. -/
theorem copyToDB_terminator_twice :
    oneColumn ≠ [] ∧
    (copyToDB (constArgs (JSValue.string "\\.")) [()]).error = none ∧
    (linesOf (copyToDB (constArgs (JSValue.string "\\.")) [()]).stdout).count "\\." = 2 ∧
    (linesOf (copyToDB (constArgs (JSValue.string "\\.")) [()]).stdout).drop 5 =
      ["\\.", "\\.", "COMMIT;", ""] := by
  decide

/-- C1, amended: when `emitRow` returns a row for every feature, the table name,
the column names and types and the field texts contain no line break, and no
data line is `\.` or `COMMIT;`, the lines of the output are the five preamble
lines, then one tab-joined data line per feature (N lines for N features, also
for N = 0), then the line `\.`, the line `COMMIT;` and one empty line; the lines
`\.` and `COMMIT;` each occur exactly once in the whole output. -/
theorem copyToDB_output_lines {F : Type} (args : Args F) (features : List F) (rows : F → Row)
    (hrows : ∀ f ∈ features, args.emitRow f = .ok (rows f))
    (htable : '\n' ∉ args.tablename.data)
    (hschema : ∀ col ∈ args.schema, '\n' ∉ col.name.data ∧ '\n' ∉ col.type.data)
    (hfield : ∀ f ∈ features, ∀ col ∈ args.schema,
      '\n' ∉ ((rows f).get col.name).joinText.data)
    (hdata : ∀ f ∈ features,
      rowLine args.schema (rows f) ≠ "\\." ∧ rowLine args.schema (rows f) ≠ "COMMIT;") :
    (copyToDB args features).error = none ∧
    linesOf (copyToDB args features).stdout =
      preamble args ++ features.map (fun f => rowLine args.schema (rows f)) ++
        ["\\.", "COMMIT;", ""] ∧
    (preamble args).length = 5 ∧
    (features.map (fun f => rowLine args.schema (rows f))).length = features.length ∧
    (linesOf (copyToDB args features).stdout).count "\\." = 1 ∧
    (linesOf (copyToDB args features).stdout).count "COMMIT;" = 1 := by
  have hout := inStream_ok args rows features hrows
  have hline : ∀ l ∈ features.map (fun f => rowLine args.schema (rows f)), '\n' ∉ l.data := by
    intro l hl
    obtain ⟨f, hf, rfl⟩ := List.mem_map.1 hl
    apply not_mem_join _ _ (by decide)
    intro t ht
    obtain ⟨col, hcol, rfl⟩ := List.mem_map.1 ht
    exact hfield f hf col hcol
  have hlines : linesOf (copyToDB args features).stdout =
      preamble args ++ features.map (fun f => rowLine args.schema (rows f)) ++
        ["\\.", "COMMIT;", ""] := by
    have htext : (copyToDB args features).stdout =
        consoleText (preamble args ++ features.map (fun f => rowLine args.schema (rows f)) ++
          ["\\.", "COMMIT;", ""]) := by
      simp only [Output.stdout, copyToDB, hout]
      rw [← List.append_assoc, consoleText_append, consoleText_final, ← consoleText_append]
    rw [htext]
    apply linesOf_consoleText
    intro l hl
    rcases List.mem_append.1 hl with h1 | h1
    · rcases List.mem_append.1 h1 with h2 | h2
      · exact preamble_no_newline args htable hschema l h2
      · exact hline l h2
    · have hfin : ∀ t ∈ ["\\.", "COMMIT;", ""], '\n' ∉ String.data t := by decide
      exact hfin l h1
  have hpre := preamble_ne_terminator args
  have hcount : ∀ t : String, (t = "\\." ∨ t = "COMMIT;") →
      (preamble args ++ features.map (fun f => rowLine args.schema (rows f)) ++
        ["\\.", "COMMIT;", ""]).count t = 1 := by
    intro t ht
    have h1 : (preamble args).count t = 0 := by
      apply List.count_eq_zero.2
      intro hm
      rcases ht with rfl | rfl
      · exact (hpre _ hm).1 rfl
      · exact (hpre _ hm).2 rfl
    have h2 : (features.map (fun f => rowLine args.schema (rows f))).count t = 0 := by
      apply List.count_eq_zero.2
      intro hm
      obtain ⟨f, hf, hfe⟩ := List.mem_map.1 hm
      rcases ht with rfl | rfl
      · exact (hdata f hf).1 hfe
      · exact (hdata f hf).2 hfe
    rw [List.count_append, List.count_append, h1, h2]
    rcases ht with rfl | rfl <;> decide
  refine ⟨by simp [copyToDB, hout], hlines, rfl, by simp, ?_, ?_⟩
  · rw [hlines]; exact hcount _ (Or.inl rfl)
  · rw [hlines]; exact hcount _ (Or.inr rfl)

/-- C1, witness: two features with the row `a = "x"`. -/
theorem copyToDB_output_lines_witness :
    linesOf (copyToDB (constArgs (JSValue.string "x")) [(), ()]).stdout =
      preamble (constArgs (JSValue.string "x")) ++ ["x", "x"] ++ ["\\.", "COMMIT;", ""] ∧
    (linesOf (copyToDB (constArgs (JSValue.string "x")) [(), ()]).stdout).count "\\." = 1 :=
  have h := copyToDB_output_lines (constArgs (JSValue.string "x")) [(), ()]
    (fun _ => objectLiteral [("a", JSValue.string "x")])
    (fun _ _ => rfl) (by decide) (by decide) (by decide) (by decide)
  ⟨h.2.1, h.2.2.2.2.1⟩


/-! ## C2 -/

/-- C2, counterexample: with the one-column schema and the row `a = "x<TAB>y"`
the logged line splits at tabs into two fields, not one; and with the empty
schema the logged line is empty and splits into one (empty) field, not zero. -/
theorem split_rowLine_field_count :
    (copyToDB (constArgs (JSValue.string "x\ty")) [()]).logs[5]? =
      some (rowLine oneColumn (objectLiteral [("a", JSValue.string "x\ty")])) ∧
    split (rowLine oneColumn (objectLiteral [("a", JSValue.string "x\ty")])) '\t' = ["x", "y"] ∧
    oneColumn.length = 1 ∧
    split (rowLine [] (objectLiteral [("a", JSValue.string "x")])) '\t' = [""] := by
  decide

/-- C2, amended: for a non-empty schema and a row none of whose field texts
contains a tab, the line `copyToDB` logs for the row splits at tabs into exactly
`len(schema)` fields, the i-th being the text of the row's value for the i-th
schema column. -/
theorem split_rowLine {F : Type} (args : Args F) (f : F) (row : Row)
    (hrow : args.emitRow f = .ok row) (hne : args.schema ≠ [])
    (htab : ∀ col ∈ args.schema, '\t' ∉ (row.get col.name).joinText.data) :
    (copyToDB args [f]).logs[5]? = some (rowLine args.schema row) ∧
    split (rowLine args.schema row) '\t' =
      args.schema.map (fun col => (row.get col.name).joinText) ∧
    (split (rowLine args.schema row) '\t').length = args.schema.length := by
  have hsplit : split (rowLine args.schema row) '\t' =
      args.schema.map (fun col => (row.get col.name).joinText) := by
    apply split_join _ _ rfl
    · simpa using hne
    · intro t ht
      obtain ⟨col, hcol, rfl⟩ := List.mem_map.1 ht
      exact htab col hcol
  refine ⟨?_, hsplit, by rw [hsplit]; simp⟩
  rw [copyToDB_single args f row hrow]
  simp [preamble]

/-- C2, witness: the schema of `index.js` and the row of the worked example. -/
theorem split_rowLine_witness :
    split (rowLine floridaSchema (objectLiteral
      [("BLOCKID10", JSValue.string "120860001"), ("zika_risk", JSValue.bool true)])) '\t' =
      ["120860001", "", "true"] :=
  (split_rowLine
    { tablename := "florida_zika", file := "zika.json", schema := floridaSchema,
      emitRow := fun _ => .ok (objectLiteral
        [("BLOCKID10", JSValue.string "120860001"), ("zika_risk", JSValue.bool true)]) }
    () _ rfl (by decide) (by decide)).2.1

/-! ## C3 -/

set_option maxRecDepth 100000 in
/-- C3, the code at the failing input: when `emitRow` returns the array
`["120860001", 0.5, true]` for the three-column schema, the line logged is two
tabs (three empty fields), whereas the array values joined by tabs are
`120860001<TAB>0.5<TAB>true`. -/
theorem copyToDB_array_row :
    (copyToDB arrayArgs [()]).logs.drop 5 = ["\t\t", "\\.\nCOMMIT;\n"] ∧
    (copyToDB arrayArgs [()]).error = none ∧
    join "\t" ([JSValue.string "120860001", JSValue.number (JSNumber.finite false (2 ^ 52) (-53)),
      JSValue.bool true].map JSValue.joinText) = "120860001\t0.5\ttrue" := by
  decide

/-! ## C4 -/

/-- C4, counterexample: with a schema of zero columns, and with a schema of two
columns named `a`, the run raises no error and writes the preamble. -/
theorem copyToDB_accepts_any_schema :
    (copyToDB (schemaArgs []) []).error = none ∧
    (copyToDB (schemaArgs []) []).stdout =
      "SET CLIENT_ENCODING TO UTF8;\nSET STANDARD_CONFORMING_STRINGS TO ON;\nBEGIN;\n" ++
      "CREATE TABLE \"t\" ();\nCOPY t () FROM stdin;\n\\.\nCOMMIT;\n\n" ∧
    (copyToDB (schemaArgs [⟨"a", "text"⟩, ⟨"a", "text"⟩]) []).error = none ∧
    (copyToDB (schemaArgs [⟨"a", "text"⟩, ⟨"a", "text"⟩]) []).stdout =
      "SET CLIENT_ENCODING TO UTF8;\nSET STANDARD_CONFORMING_STRINGS TO ON;\nBEGIN;\n" ++
      "CREATE TABLE \"t\" (a text,a text);\nCOPY t (a,a) FROM stdin;\n\\.\nCOMMIT;\n\n" := by
  decide

/-- C4, amended: `copyToDB` does not check the schema.  For every table name and
every schema, also one with zero columns or with two columns of the same name,
the first five strings logged are the preamble, built from the schema as given
(with the empty column lists `()` for zero columns); and on a run whose input is
decoded to its end and whose `emitRow` returns a row for every feature no error
is raised, whatever the schema. -/
theorem copyToDB_preamble_first {F : Type} (args : Args F) (features : List F) :
    (copyToDB args features).logs.take 5 = preamble args ∧
    (preamble args).length = 5 ∧
    (args.schema = [] →
      (copyToDB args features).logs[3]? =
        some ("CREATE TABLE \"" ++ args.tablename ++ "\" ();") ∧
      (copyToDB args features).logs[4]? =
        some ("COPY " ++ args.tablename ++ " () FROM stdin;")) ∧
    ((∀ f ∈ features, ∃ row, args.emitRow f = .ok row) →
      (copyToDB args features).error = none) := by
  refine ⟨?_, rfl, ?_, ?_⟩
  · simp [copyToDB, preamble]
  · intro hschema
    simp [copyToDB, preamble, hschema, join, String.append_assoc]
  · intro hrows
    exact (inStream_complete args features hrows).2.2

/-- C4, witness: the schema of zero columns on an input of two features. -/
theorem copyToDB_preamble_first_witness :
    ((copyToDB (schemaArgs []) [(), ()]).logs[3]? = some ("CREATE TABLE \"" ++ "t" ++ "\" ();") ∧
      (copyToDB (schemaArgs []) [(), ()]).logs[4]? = some ("COPY " ++ "t" ++ " () FROM stdin;")) ∧
    (copyToDB (schemaArgs []) [(), ()]).error = none :=
  ⟨(copyToDB_preamble_first (schemaArgs []) [(), ()]).2.2.1 rfl,
   (copyToDB_preamble_first (schemaArgs []) [(), ()]).2.2.2 (fun _ _ => ⟨_, rfl⟩)⟩


/-! ## C5 -/

/-- C5, counterexample: for the feature without `POP10` the run raises no
error; the data line `120860001<TAB>NaN<TAB>true` is logged for it, followed by
the terminator and `COMMIT;`. -/
theorem copyToDB_missing_POP10 :
    noPopFeature.properties.map (fun ps => ps.lookup "POP10") = some none ∧
    (copyToDB (floridaArgs squareHost "/app") [noPopFeature]).error = none ∧
    (copyToDB (floridaArgs squareHost "/app") [noPopFeature]).logs.drop 5 =
      ["120860001\tNaN\ttrue", "\\.\nCOMMIT;\n"] := by
  decide

/-- C5, amended: for a feature whose `properties` object lacks `POP10` and whose
geometry has an area, the `emitRow` of `index.js` raises no error: it returns a
row whose `pop_per_sq_km` is `NaN`, the data line logged for the feature has
`NaN` as its second field, and the run goes on with the features that follow. -/
theorem emitRow_missing_POP10 {G : Type} (host : Host G) (dirname : String)
    (feature : Feature G) (properties : List (String × JSValue)) (sqMeters : JSNumber)
    (rest : List (Feature G))
    (hprops : feature.properties = some properties)
    (hpop : properties.lookup "POP10" = none)
    (harea : host.area feature.geometry = .ok sqMeters) :
    (∃ row, emitRow host feature = .ok row ∧
      row.get "pop_per_sq_km" = JSValue.number JSNumber.nan) ∧
    (copyToDB (floridaArgs host dirname) (feature :: rest)).logs =
      preamble (floridaArgs host dirname) ++
        ((prop properties "BLOCKID10").toString ++ "\t" ++ ("NaN" ++ "\t" ++
          (prop properties "risk_zone").joinText)) ::
        (inStream (floridaArgs host dirname) rest).logs ∧
    (copyToDB (floridaArgs host dirname) (feature :: rest)).error =
      (inStream (floridaArgs host dirname) rest).error := by
  have hrow : emitRow host feature = .ok (objectLiteral
      [("BLOCKID10", JSValue.string (prop properties "BLOCKID10").toString),
       ("pop_per_sq_km", JSValue.number JSNumber.nan),
       ("zika_risk", prop properties "risk_zone")]) := by
    simp [emitRow, harea, hprops, prop, hpop, JSValue.toNumber, JSNumber.nan_div,
      JSNumber.nan_mul]
  refine ⟨⟨_, hrow, by simp [Row.get, List.lookup, objectLiteral]⟩, ?_, ?_⟩
  · rw [copyToDB_cons (floridaArgs host dirname) feature rest _ hrow]
    simp [floridaArgs, floridaSchema, rowLine, join, Row.get, List.lookup, objectLiteral,
      JSValue.joinText, JSValue.toString, JSNumber.toString]
  · rw [copyToDB_cons (floridaArgs host dirname) feature rest _ hrow]

/-- C5, witness: the feature without `POP10`, followed by the feature of the
worked example. -/
theorem emitRow_missing_POP10_witness :
    (copyToDB (floridaArgs squareHost "/app") [noPopFeature, blockFeature]).error =
      (inStream (floridaArgs squareHost "/app") [blockFeature]).error :=
  (emitRow_missing_POP10 squareHost "/app" noPopFeature _ (JSNumber.ofNat 1000000)
    [blockFeature] rfl (by decide) rfl).2.2


/-! ## C6 -/

/-- C6: among the five preamble lines exactly one is a `CREATE TABLE`
statement, the fourth; the column list between its parentheses is the
comma-join of exactly `len(schema)` entries, the i-th entry being the i-th
column name, a space and its type.  When the schema is non-empty and no name or
type contains a comma, splitting the list at commas gives back those entries. -/
theorem preamble_create_table {F : Type} (args : Args F) (features : List F) :
    ((copyToDB args features).logs.take 5).countP
      (fun l => "CREATE TABLE".data.isPrefixOf l.data) = 1 ∧
    ((copyToDB args features).logs.take 5)[3]? = some
      ("CREATE TABLE \"" ++ args.tablename ++ "\" (" ++
        ",".intercalate (args.schema.map fun col => col.name ++ " " ++ col.type) ++ ");") ∧
    (args.schema.map fun col => col.name ++ " " ++ col.type).length = args.schema.length ∧
    (∀ (i : Nat) (col : Column), args.schema[i]? = some col →
      (args.schema.map fun col => col.name ++ " " ++ col.type)[i]? =
        some (col.name ++ " " ++ col.type)) ∧
    (args.schema ≠ [] → (∀ col ∈ args.schema, ',' ∉ col.name.data ∧ ',' ∉ col.type.data) →
      split (",".intercalate (args.schema.map fun col => col.name ++ " " ++ col.type)) ',' =
        args.schema.map fun col => col.name ++ " " ++ col.type) := by
  have htake : (copyToDB args features).logs.take 5 = preamble args := take_preamble args _
  refine ⟨?_, ?_, by simp, ?_, ?_⟩
  · rw [htake]
    simp [preamble, List.countP_cons, String.data_append, List.isPrefixOf]
  · rw [htake]
    simp [preamble, join_eq_intercalate]
  · intro i col hcol
    simp [hcol]
  · intro hne hcomma
    rw [← join_eq_intercalate]
    apply split_join _ _ rfl
    · simpa using hne
    · intro t ht
      obtain ⟨col, hcol, rfl⟩ := List.mem_map.1 ht
      have := hcomma col hcol
      simp [String.data_append, this.1, this.2]

/-- C6, witness: the schema of `index.js`, whose first type is
`character varying(80)`. -/
theorem preamble_create_table_witness :
    split (",".intercalate (floridaSchema.map fun col => col.name ++ " " ++ col.type)) ',' =
      floridaSchema.map fun col => col.name ++ " " ++ col.type :=
  (preamble_create_table (floridaArgs squareHost "/app") []).2.2.2.2 (by decide) (by decide)

/-! ## C7 -/

/-- C7: when the table name, the column names and the types contain no line
break, the text written before any feature is processed is exactly five lines:
the two `SET` directives, `BEGIN;`, the `CREATE TABLE` statement naming the
table, and the `COPY ... FROM stdin` statement naming the table with the column
names in schema order joined by commas. -/
theorem preamble_five_lines {F : Type} (args : Args F) (features : List F)
    (htable : '\n' ∉ args.tablename.data)
    (hschema : ∀ col ∈ args.schema, '\n' ∉ col.name.data ∧ '\n' ∉ col.type.data) :
    (copyToDB args features).stdout =
      consoleText (preamble args) ++ consoleText (inStream args features).logs ∧
    linesOf (consoleText (preamble args)) =
      ["SET CLIENT_ENCODING TO UTF8;",
       "SET STANDARD_CONFORMING_STRINGS TO ON;",
       "BEGIN;",
       "CREATE TABLE \"" ++ args.tablename ++ "\" (" ++
         ",".intercalate (args.schema.map fun col => col.name ++ " " ++ col.type) ++ ");",
       "COPY " ++ args.tablename ++ " (" ++
         ",".intercalate (args.schema.map fun col => col.name) ++ ") FROM stdin;"] := by
  constructor
  · simp [Output.stdout, copyToDB, consoleText_append]
  · rw [linesOf_consoleText _ (preamble_no_newline args htable hschema)]
    simp [preamble, join_eq_intercalate]

/-- C7, witness: the call at the bottom of `index.js`. -/
theorem preamble_five_lines_witness :
    linesOf (consoleText (preamble (floridaArgs squareHost "/app"))) =
      ["SET CLIENT_ENCODING TO UTF8;",
       "SET STANDARD_CONFORMING_STRINGS TO ON;",
       "BEGIN;",
       "CREATE TABLE \"" ++ "florida_zika" ++ "\" (" ++
         ",".intercalate (floridaSchema.map fun col => col.name ++ " " ++ col.type) ++ ");",
       "COPY " ++ "florida_zika" ++ " (" ++
         ",".intercalate (floridaSchema.map fun col => col.name) ++ ") FROM stdin;"] :=
  (preamble_five_lines (floridaArgs squareHost "/app") [] (by decide) (by decide)).2

/-! ## C8 -/

/-- C8: the entries logged after the preamble follow the features one to one
and in order.  Whenever the i-th feature and the i-th entry both exist,
`emitRow` returned a row for that feature and the entry is that row's line; and
when `emitRow` returns a row for every one of the N features there are N + 1
entries, the N data lines and then the terminator call, so no row is dropped,
duplicated or moved. -/
theorem copyToDB_rows_in_order {F : Type} (args : Args F) (features : List F) :
    (∀ (i : Nat) (f : F) (line : String), features[i]? = some f →
      ((copyToDB args features).logs.drop 5)[i]? = some line →
      ∃ row, args.emitRow f = .ok row ∧ line = rowLine args.schema row) ∧
    ((∀ f ∈ features, ∃ row, args.emitRow f = .ok row) →
      ((copyToDB args features).logs.drop 5).length = features.length + 1 ∧
      ((copyToDB args features).logs.drop 5)[features.length]? = some "\\.\nCOMMIT;\n" ∧
      (copyToDB args features).error = none) := by
  have hdrop : (copyToDB args features).logs.drop 5 = (inStream args features).logs :=
    drop_preamble args _
  rw [hdrop]
  exact ⟨inStream_entry args features, inStream_complete args features⟩

/-- C8, witness: two features of the one-column call. -/
theorem copyToDB_rows_in_order_witness :
    ((copyToDB (constArgs (JSValue.string "x")) [(), ()]).logs.drop 5).length = 2 + 1 ∧
    ∃ row, (constArgs (JSValue.string "x")).emitRow () = .ok row ∧
      "x" = rowLine (constArgs (JSValue.string "x")).schema row :=
  ⟨((copyToDB_rows_in_order (constArgs (JSValue.string "x")) [(), ()]).2
      (fun _ _ => ⟨_, rfl⟩)).1,
   (copyToDB_rows_in_order (constArgs (JSValue.string "x")) [(), ()]).1 1 () "x" rfl
      (by decide)⟩

/-! ## C9 -/

set_option maxRecDepth 100000 in
/-- C9: for a feature with string `BLOCKID10 = b`, numeric `POP10 = p`, boolean
`risk_zone = r` and geometry area `a`, the `emitRow` of `index.js` returns the
row `BLOCKID10: b, pop_per_sq_km: p / a * 1000, zika_risk: r`, and with the
three-column schema the line logged is `b`, the decimal text of `p / a * 1000`
and `true` or `false`, separated by tabs.  In double arithmetic
`500 / 1000000 * 1000` is `0.5` (the double `2 ^ 52 * 2 ^ -53`), whose decimal
text is `0.5`, so the worked example logs `120860001<TAB>0.5<TAB>true`. -/
theorem emitRow_density {G : Type} (host : Host G) (dirname : String)
    (feature : Feature G) (properties : List (String × JSValue))
    (b : String) (p a : JSNumber) (r : Bool)
    (hprops : feature.properties = some properties)
    (hb : properties.lookup "BLOCKID10" = some (JSValue.string b))
    (hp : properties.lookup "POP10" = some (JSValue.number p))
    (hr : properties.lookup "risk_zone" = some (JSValue.bool r))
    (harea : host.area feature.geometry = .ok a) :
    emitRow host feature = .ok (objectLiteral
      [("BLOCKID10", JSValue.string b),
       ("pop_per_sq_km", JSValue.number ((p.div a).mul (JSNumber.ofNat 1000))),
       ("zika_risk", JSValue.bool r)]) ∧
    (copyToDB (floridaArgs host dirname) [feature]).logs.drop 5 =
      [b ++ "\t" ++ (((p.div a).mul (JSNumber.ofNat 1000)).toString ++ "\t" ++
          (if r then "true" else "false")),
       "\\.\nCOMMIT;\n"] ∧
    ((JSNumber.ofNat 500).div (JSNumber.ofNat 1000000)).mul (JSNumber.ofNat 1000) =
      JSNumber.finite false (2 ^ 52) (-53) ∧
    (JSNumber.finite false (2 ^ 52) (-53)).toString = "0.5" ∧
    (b = "120860001" → p = JSNumber.ofNat 500 → a = JSNumber.ofNat 1000000 → r = true →
      (copyToDB (floridaArgs host dirname) [feature]).logs.drop 5 =
        ["120860001\t0.5\ttrue", "\\.\nCOMMIT;\n"]) := by
  have hrow : emitRow host feature = .ok (objectLiteral
      [("BLOCKID10", JSValue.string b),
       ("pop_per_sq_km", JSValue.number ((p.div a).mul (JSNumber.ofNat 1000))),
       ("zika_risk", JSValue.bool r)]) := by
    simp [emitRow, harea, hprops, prop, hb, hp, hr, JSValue.toNumber, JSValue.toString,
      objectLiteral]
  have hlogs : (copyToDB (floridaArgs host dirname) [feature]).logs.drop 5 =
      [b ++ "\t" ++ (((p.div a).mul (JSNumber.ofNat 1000)).toString ++ "\t" ++
          (if r then "true" else "false")),
       "\\.\nCOMMIT;\n"] := by
    rw [copyToDB_single (floridaArgs host dirname) feature _ hrow, drop_preamble]
    cases r <;>
      simp [floridaArgs, floridaSchema, rowLine, join, Row.get, List.lookup, objectLiteral,
        JSValue.joinText, JSValue.toString]
  have hval : ((JSNumber.ofNat 500).div (JSNumber.ofNat 1000000)).mul (JSNumber.ofNat 1000) =
      JSNumber.finite false (2 ^ 52) (-53) := by decide
  have htext : (JSNumber.finite false (2 ^ 52) (-53)).toString = "0.5" := by decide
  refine ⟨hrow, hlogs, hval, htext, ?_⟩
  intro hb2 hp2 ha2 hr2
  rw [hlogs, hb2, hp2, ha2, hr2, hval, htext]
  decide

/-- C9, witness: the feature of the worked example, area 1,000,000 square
meters. -/
theorem emitRow_density_witness :
    (copyToDB (floridaArgs squareHost "/app") [blockFeature]).logs.drop 5 =
      ["120860001\t0.5\ttrue", "\\.\nCOMMIT;\n"] :=
  (emitRow_density squareHost "/app" blockFeature _ "120860001" (JSNumber.ofNat 500)
    (JSNumber.ofNat 1000000) true rfl (by decide) (by decide) (by decide) rfl).2.2.2.2
    rfl rfl rfl rfl

/-! ## C10 -/

/-- C10: the line logged for a row is the texts of `row[name_1]`, ...,
`row[name_k]`, in schema order, joined by single tab characters; a string value
is copied as it is, a number is written by `Number::toString`, a boolean as
`true` or `false`. -/
theorem rowLine_fields {F : Type} (args : Args F) (f : F) (row : Row)
    (hrow : args.emitRow f = .ok row) :
    (copyToDB args [f]).logs[5]? =
      some ("\t".intercalate (args.schema.map fun col => (row.get col.name).joinText)) ∧
    (∀ s, (JSValue.string s).joinText = s) ∧
    (∀ x, (JSValue.number x).joinText = x.toString) ∧
    (JSValue.bool true).joinText = "true" ∧ (JSValue.bool false).joinText = "false" := by
  refine ⟨?_, fun _ => rfl, fun _ => rfl, rfl, rfl⟩
  rw [copyToDB_single args f row hrow, ← join_eq_intercalate]
  simp [preamble, rowLine]

/-- C10, witness: the row `a = "it's"` of the one-column call is logged as
`it's`, unquoted. -/
theorem rowLine_fields_witness :
    (copyToDB (constArgs (JSValue.string "it\x27s")) [()]).logs[5]? =
      some ("\t".intercalate
        ((constArgs (JSValue.string "it\x27s")).schema.map fun col =>
          ((objectLiteral [("a", JSValue.string "it\x27s")]).get col.name).joinText)) :=
  (rowLine_fields (constArgs (JSValue.string "it\x27s")) () _ rfl).1

/-! ## C11 -/

theorem joinText_of_no_value (row : Row) (key : String)
    (hno : (row.own.lookup key = none ∧ row.inherited key = JSValue.undefined) ∨
      row.own.lookup key = some JSValue.undefined ∨
      row.own.lookup key = some JSValue.null) :
    (row.get key).joinText = "" := by
  rcases hno with ⟨h1, h2⟩ | h | h
  · simp [Row.get, h1, h2, JSValue.joinText]
  · simp [Row.get, h, JSValue.joinText]
  · simp [Row.get, h, JSValue.joinText]

/-- C11, counterexample: the empty object has no own property `constructor`,
yet with the one-column schema `constructor` the line logged for it is not
empty: the lookup finds the member inherited from `Object.prototype`. -/
theorem rowLine_inherited_member :
    (objectLiteral []).own.lookup "constructor" = none ∧
    (copyToDB (schemaArgs [⟨"constructor", "text"⟩]) [()]).error = none ∧
    (copyToDB (schemaArgs [⟨"constructor", "text"⟩]) [()]).logs.drop 5 =
      ["function Object() \x7b [native code] \x7d", "\\.\nCOMMIT;\n"] := by
  decide

/-- C11, amended: when the row has no value for a schema column, that is, the
column name is not an own property and is not inherited from the prototype
either, or the property is `undefined` or `null`, the run does not fail and the
line logged is the tab-join of the fields with the empty string at every
position of that column and the text of the row's value at the other
positions. -/
theorem rowLine_missing_value {F : Type} (args : Args F) (f : F) (row : Row) (col : Column)
    (hrow : args.emitRow f = .ok row) (hcol : col ∈ args.schema)
    (hno : (row.own.lookup col.name = none ∧ row.inherited col.name = JSValue.undefined) ∨
      row.own.lookup col.name = some JSValue.undefined ∨
      row.own.lookup col.name = some JSValue.null) :
    (copyToDB args [f]).error = none ∧
    (copyToDB args [f]).logs[5]? = some ("\t".intercalate (args.schema.map fun c =>
      if c.name = col.name then "" else (row.get c.name).joinText)) ∧
    (∃ i : Nat, args.schema[i]? = some col) ∧
    (∀ (i : Nat), args.schema[i]? = some col →
      (args.schema.map fun c =>
        if c.name = col.name then "" else (row.get c.name).joinText)[i]? = some "") := by
  have hempty := joinText_of_no_value row col.name hno
  have hfields : (args.schema.map fun c =>
      if c.name = col.name then "" else (row.get c.name).joinText) =
      args.schema.map fun c => (row.get c.name).joinText := by
    apply List.map_congr_left
    intro c _
    by_cases hc : c.name = col.name
    · simp [hc, hempty]
    · simp [hc]
  refine ⟨?_, ?_, ?_, ?_⟩
  · rw [copyToDB_single args f row hrow]
  · rw [copyToDB_single args f row hrow, hfields, ← join_eq_intercalate]
    simp [preamble, rowLine]
  · obtain ⟨i, hi, hget⟩ := List.mem_iff_getElem.1 hcol
    exact ⟨i, by simp [hi, hget]⟩
  · intro i hi
    simp [hi]

/-- C11, witness: the row of the worked example without `pop_per_sq_km`, with
the schema of `index.js`. -/
theorem rowLine_missing_value_witness :
    (copyToDB
      { tablename := "florida_zika", file := "zika.json", schema := floridaSchema,
        emitRow := fun _ : Unit => .ok (objectLiteral
          [("BLOCKID10", JSValue.string "120860001"), ("zika_risk", JSValue.bool true)]) }
      [()]).logs[5]? = some "120860001\t\ttrue" :=
  (rowLine_missing_value
    { tablename := "florida_zika", file := "zika.json", schema := floridaSchema,
      emitRow := fun _ : Unit => .ok (objectLiteral
        [("BLOCKID10", JSValue.string "120860001"), ("zika_risk", JSValue.bool true)]) }
    () _ ⟨"pop_per_sq_km", "real"⟩ rfl (by decide) (Or.inl (by decide))).2.1

/-! ## C12 -/

theorem inStream_congr {F : Type} (a1 a2 : Args F) (features : List F)
    (hschema : a1.schema = a2.schema)
    (hemit : ∀ f ∈ features, a1.emitRow f = a2.emitRow f) :
    inStream a1 features = inStream a2 features := by
  induction features with
  | nil => rfl
  | cons f fs ih =>
    have hf := hemit f (by simp)
    have ih2 := ih (fun g hg => hemit g (List.mem_cons_of_mem _ hg))
    simp only [inStream, hf, ih2, hschema]

/-- C12: the output is a function of the table name, the schema, the feature
sequence and the derivation function alone.  Two runs that agree on the table
name, on the schema and on what `emitRow` returns for the features of the
sequence write the same text and end the same way, whatever else differs
between them (the path in `args.file`, the values of `emitRow` elsewhere). -/
theorem copyToDB_deterministic {F : Type} (a1 a2 : Args F) (features : List F)
    (htable : a1.tablename = a2.tablename) (hschema : a1.schema = a2.schema)
    (hemit : ∀ f ∈ features, a1.emitRow f = a2.emitRow f) :
    (copyToDB a1 features).stdout = (copyToDB a2 features).stdout ∧
    (copyToDB a1 features).error = (copyToDB a2 features).error := by
  have hpre : preamble a1 = preamble a2 := by simp [preamble, htable, hschema]
  have hstream := inStream_congr a1 a2 features hschema hemit
  simp [copyToDB, Output.stdout, hpre, hstream]

/-- C12, witness: the call of `index.js` run from two different directories on
the same two features. -/
theorem copyToDB_deterministic_witness :
    (copyToDB (floridaArgs squareHost "/app") [blockFeature, noPopFeature]).stdout =
      (copyToDB (floridaArgs squareHost "/srv/zika") [blockFeature, noPopFeature]).stdout :=
  (copyToDB_deterministic (floridaArgs squareHost "/app") (floridaArgs squareHost "/srv/zika")
    [blockFeature, noPopFeature] rfl rfl (fun _ _ => rfl)).1

/-! ## C13 -/

/-- C13: the fourth line logged is `CREATE TABLE`, the table name wrapped in
double quotes, and the column definitions; the fifth is `COPY`, the bare table
name, and the column names.  The quoted identifier is never the same string as
the bare one, and it is the bare one once its first and last character (the
two double quotes) are removed. -/
theorem preamble_table_identifiers {F : Type} (args : Args F) (features : List F) :
    (copyToDB args features).logs[3]? = some
      ("CREATE TABLE " ++ ("\"" ++ args.tablename ++ "\"") ++ " (" ++
        ",".intercalate (args.schema.map fun col => col.name ++ " " ++ col.type) ++ ");") ∧
    (copyToDB args features).logs[4]? = some
      ("COPY " ++ args.tablename ++ " (" ++
        ",".intercalate (args.schema.map fun col => col.name) ++ ") FROM stdin;") ∧
    "\"" ++ args.tablename ++ "\"" ≠ args.tablename ∧
    (("\"" ++ args.tablename ++ "\"").data.drop 1).dropLast = args.tablename.data := by
  refine ⟨?_, ?_, ?_, ?_⟩
  · have hq : "CREATE TABLE \"" = "CREATE TABLE " ++ "\"" := by decide
    simp [copyToDB, preamble, join_eq_intercalate, String.append_assoc]
    rw [← String.append_assoc "CREATE TABLE " "\""]
    exact congrArg (fun s => s ++ _) hq
  · simp [copyToDB, preamble, join_eq_intercalate]
  · intro h
    have h2 := congrArg (fun s => s.data.length) h
    simp [String.data_append] at h2
    omega
  · simp [String.data_append]

/-! ## C14 -/

theorem JSNumber.ofNat_1000 :
    JSNumber.ofNat 1000 = JSNumber.finite false 8796093022208000 (-43) := by
  decide

theorem JSNumber.div_zero_mul (x : JSNumber) (negative : Bool) (exp : Int) :
    (x.div (JSNumber.finite negative 0 exp)).mul (JSNumber.ofNat 1000) = JSNumber.nan ∨
    (x.div (JSNumber.finite negative 0 exp)).mul (JSNumber.ofNat 1000) =
      JSNumber.infinity false ∨
    (x.div (JSNumber.finite negative 0 exp)).mul (JSNumber.ofNat 1000) =
      JSNumber.infinity true := by
  rw [JSNumber.ofNat_1000]
  cases x with
  | nan => left; rfl
  | infinity t => cases t <;> cases negative <;> simp [JSNumber.div, JSNumber.mul]
  | finite t m e =>
    by_cases hm : m = 0
    · left; simp [JSNumber.div, JSNumber.mul, hm]
    · cases t <;> cases negative <;> simp [JSNumber.div, JSNumber.mul, hm]

/-- C14, counterexample: a feature of area 0 whose `properties` member is
`null`, followed by the feature of the worked example.  Reading
`feature.properties.BLOCKID10` throws a `TypeError`: the run ends with that
error, no data line is logged for the feature and the next feature is not
processed. -/
theorem copyToDB_zero_area_null_properties :
    pointHost.area nullPropertiesFeature.geometry = .ok (JSNumber.finite false 0 (-1074)) ∧
    (copyToDB (floridaArgs pointHost "/app") [nullPropertiesFeature, blockFeature]).error =
      some ⟨"TypeError"⟩ ∧
    (copyToDB (floridaArgs pointHost "/app") [nullPropertiesFeature, blockFeature]).logs.drop 5 =
      [] :=
  ⟨rfl, by decide, by decide⟩

/-- C14, amended: for a feature with a `properties` object whose geometry has area 0,
the `emitRow` of `index.js` raises no error: the division is not guarded, the
row returned has `NaN`, `Infinity` or `-Infinity` as `pop_per_sq_km`, the data
line logged for the feature carries that text in its second field, and the run
goes on with the features that follow. -/
theorem emitRow_zero_area {G : Type} (host : Host G) (dirname : String)
    (feature : Feature G) (properties : List (String × JSValue))
    (negative : Bool) (exp : Int) (rest : List (Feature G))
    (hprops : feature.properties = some properties)
    (harea : host.area feature.geometry = .ok (JSNumber.finite negative 0 exp)) :
    ∃ density : JSNumber,
      density = (((prop properties "POP10").toNumber host.stringToNumber).div
        (JSNumber.finite negative 0 exp)).mul (JSNumber.ofNat 1000) ∧
      (density = JSNumber.nan ∨ density = JSNumber.infinity false ∨
        density = JSNumber.infinity true) ∧
      density.toString ∈ ["NaN", "Infinity", "-Infinity"] ∧
      emitRow host feature = .ok (objectLiteral
        [("BLOCKID10", JSValue.string (prop properties "BLOCKID10").toString),
         ("pop_per_sq_km", JSValue.number density),
         ("zika_risk", prop properties "risk_zone")]) ∧
      (copyToDB (floridaArgs host dirname) (feature :: rest)).logs =
        preamble (floridaArgs host dirname) ++
          ((prop properties "BLOCKID10").toString ++ "\t" ++ (density.toString ++ "\t" ++
            (prop properties "risk_zone").joinText)) ::
          (inStream (floridaArgs host dirname) rest).logs ∧
      (copyToDB (floridaArgs host dirname) (feature :: rest)).error =
        (inStream (floridaArgs host dirname) rest).error := by
  refine ⟨_, rfl, ?_⟩
  generalize hd : (((prop properties "POP10").toNumber host.stringToNumber).div
    (JSNumber.finite negative 0 exp)).mul (JSNumber.ofNat 1000) = density
  have hcases := JSNumber.div_zero_mul ((prop properties "POP10").toNumber host.stringToNumber)
    negative exp
  rw [hd] at hcases
  have hrow : emitRow host feature = .ok (objectLiteral
      [("BLOCKID10", JSValue.string (prop properties "BLOCKID10").toString),
       ("pop_per_sq_km", JSValue.number density),
       ("zika_risk", prop properties "risk_zone")]) := by
    simp [emitRow, harea, hprops, hd]
  have htext : density.toString ∈ ["NaN", "Infinity", "-Infinity"] := by
    rcases hcases with h | h | h <;> rw [h] <;> decide
  refine ⟨hcases, htext, hrow, ?_, ?_⟩
  · rw [copyToDB_cons (floridaArgs host dirname) feature rest _ hrow]
    simp [floridaArgs, floridaSchema, rowLine, join, Row.get, List.lookup, objectLiteral,
      JSValue.joinText, JSValue.toString]
  · rw [copyToDB_cons (floridaArgs host dirname) feature rest _ hrow]

/-- C14, witness: the feature of the worked example as a point (area 0),
followed by the same feature; the first is logged with `Infinity`. -/
theorem emitRow_zero_area_witness :
    ∃ density : JSNumber,
      density.toString ∈ ["NaN", "Infinity", "-Infinity"] ∧
      (copyToDB (floridaArgs pointHost "/app") [blockFeature, blockFeature]).error =
        (inStream (floridaArgs pointHost "/app") [blockFeature]).error :=
  have h := emitRow_zero_area pointHost "/app" blockFeature _ false (-1074) [blockFeature]
    rfl rfl
  h.elim fun density hd => ⟨density, hd.2.2.1, hd.2.2.2.2.2⟩


end ComputeDensity
